import Mathlib

/-
Verification development for the `cmdline` Go package (tomet/cmdline).

The package parses command-line arguments: a parser loop pops one raw
token at a time, classifies it into an option name and a string value,
and hands the classified state to a caller-supplied callback, which
claims the token through query methods (IsOpt, IsStrOpt, IsIntOpt,
IsArg, IsArgN, Arg).

This file is a shallow embedding of cmdline.go:
  - the Go struct `Parser` becomes the structure `Parser` below, with
    the same fields; methods that mutate the receiver become functions
    returning a new `Parser` (paired with their Go return value);
  - the caller callback `fn func(*Parser)` (a closure mutating outer
    variables) becomes `fn : s -> Parser -> s * Parser` for an
    arbitrary external-state type;
  - `ParseArgs`' loop is written with explicit fuel (one unit per
    iteration); the entry point supplies `length rest + 1` units, which
    is enough because every iteration consumes at least one token when
    the callback mutates state only through the parser methods;
  - the process-global `Help` and the `HelpFunc(Help)` call are modelled
    by an explicit `help` parameter and an `Outcome.helped` result
    carrying the string that was handed to the help handler;
  - `(*Parser).Errorf` calls the process-global `ErrorFunc` and records
    the formatted message on the parser; the global side channel (by
    default process exit) is outside the parsing core and is modelled by
    the recorded message alone, exactly as the package's own tests do
    (they install the no-op `ReturnError` handler);
  - `ProgramMessage` writes to an `*os.File`; the embedding returns the
    full string written to that file (each `Fprintln` call appends the
    printed string plus a newline);
  - setting the process-global `Program` from `args[0]` is a side effect
    on configuration that no parsing behaviour below depends on; the
    embedding only drops `args[0]` as the Go code does.

Go `int` is 64-bit here; `strconv.ParseInt(s, 10, 64)` is embedded as
`parseInt64`, returning `none` exactly when Go returns a non-nil error
(syntax error or value outside the int64 range).
-/

namespace Cmdline

/-- State of one parse, mirroring the Go struct `Parser` field by field:
`rest` the unconsumed raw tokens, `argIdx` the positional index,
`onlyArgs` the only-positional mode entered after a bare `--`, `opt` and
`strVal` the classification of the current token, `intVal` the last
integer option value, `grabbed` whether the current token was claimed,
`err` the recorded error message. -/
structure Parser where
  rest : List String
  argIdx : Nat
  onlyArgs : Bool
  opt : String
  strVal : String
  intVal : Int
  grabbed : Bool
  err : Option String
deriving Repr, DecidableEq

/-- The parser state `ParseArgs` starts from: `&Parser{rest: args}`. -/
def Parser.initial (rest : List String) : Parser :=
  ⟨rest, 0, false, "", "", 0, false, none⟩

/-- Embeds `(*Parser).Errorf`: records the formatted message on the
parser state (the call to the process-global `ErrorFunc` is a side
channel outside the parsing core, see the header comment). -/
def Parser.Errorf (p : Parser) (msg : String) : Parser :=
  { p with err := some msg }

/-- Embeds `strings.SplitN(s, "=", 2)` on a character list: the part
before the first `=` together with, when a `=` occurs, the part after
it. -/
def splitN2Eq : List Char → List Char × Option (List Char)
  | [] => ([], none)
  | c :: cs =>
    if c = '=' then ([], some cs)
    else
      let r := splitN2Eq cs
      (c :: r.1, r.2)

/-- Embeds `strings.HasPrefix(arg, "-")` on a character list. -/
def startsWithDash : List Char → Bool
  | [] => false
  | c :: _ => c = '-'

/-- Embeds `strings.HasPrefix(arg, "-")`. -/
def hasDashStart (s : String) : Bool :=
  startsWithDash s.data

/-- The classifier body of `(*Parser).parseArg` on a character list:
for a token starting with `-`, strip all leading `-` (Go
`strings.TrimLeft(arg, "-")`), split the remainder on the first `=`
into name and value, and replace an empty name by the sentinel `???`;
otherwise the whole token is the value. -/
def parseArgChars (cs : List Char) : List Char × List Char :=
  if startsWithDash cs then
    ((if (splitN2Eq (cs.dropWhile (fun c => c = '-'))).1 = [] then ['?', '?', '?']
      else (splitN2Eq (cs.dropWhile (fun c => c = '-'))).1),
     ((splitN2Eq (cs.dropWhile (fun c => c = '-'))).2).getD [])
  else ([], cs)

/-- Embeds `(*Parser).parseArg` (a pure function of the token; the Go
method never reads or writes the receiver). -/
def Parser.parseArg (arg : String) : String × String :=
  let r := parseArgChars arg.data
  (String.mk r.1, String.mk r.2)

/-- Embeds `(*Parser).IsOpt`: the boolean result paired with the
updated parser state. The Go assignment `parser.opt = long` before the
value test becomes a record update on each exit path (the test reads
`strVal`, which the assignment does not touch). -/
def Parser.IsOpt (p : Parser) (long short : String) : Bool × Parser :=
  if p.opt ≠ long ∧ p.opt ≠ short then (false, p)
  else if p.strVal ≠ "" then
    (false, Parser.Errorf { p with opt := long } ("Option erlaubt kein Options-Argument: --" ++ long))
  else
    (true, { p with opt := long, grabbed := true })

/-- Embeds `(*Parser).IsStrOpt`: on a name match with an empty current
value it pops and classifies a lookahead token; the pop persists even
when the lookahead is rejected. As in `IsOpt`, the assignment
`parser.opt = long` becomes a record update on each exit path. -/
def Parser.IsStrOpt (p : Parser) (long short : String) : Bool × Parser :=
  if p.opt ≠ long ∧ p.opt ≠ short then (false, p)
  else if p.strVal ≠ "" then
    (true, { p with opt := long, grabbed := true })
  else
    match p.rest with
    | a :: r =>
      if (Parser.parseArg a).1 = "" ∧ (Parser.parseArg a).2 ≠ "" then
        (true, { p with opt := long, rest := r, strVal := (Parser.parseArg a).2, grabbed := true })
      else
        (false, Parser.Errorf { p with opt := long, rest := r } ("Option erwartet ein Options-Argument: --" ++ long))
    | [] =>
      (false, Parser.Errorf { p with opt := long } ("Option erwartet ein Options-Argument: --" ++ long))

/-- Embeds `(*Parser).StrVal`. -/
def Parser.StrVal (p : Parser) : String :=
  p.strVal

/-- Decimal digit accumulator used by `parseInt64` (the digits loop of
`strconv.ParseInt` for base 10). -/
def decDigitsAux : List Char → Nat → Option Nat
  | [], acc => some acc
  | c :: cs, acc =>
    if c.isDigit then decDigitsAux cs (acc * 10 + (c.toNat - '0'.toNat))
    else none

/-- A non-empty all-digit character list read as a natural number;
`none` on an empty list or any non-digit character. -/
def decDigits : List Char → Option Nat
  | [] => none
  | cs => decDigitsAux cs 0

/-- Sign handling of `strconv.ParseInt`: one optional leading `+` or
`-`, then a non-empty digit string. -/
def parseIntChars : List Char → Option Int
  | [] => none
  | '+' :: cs => (decDigits cs).map (fun n => (n : Int))
  | '-' :: cs => (decDigits cs).map (fun n => -(n : Int))
  | cs => (decDigits cs).map (fun n => (n : Int))

/-- Smallest value of Go's `int64`. -/
def int64Min : Int := -(2 ^ 63)

/-- Largest value of Go's `int64`. -/
def int64Max : Int := 2 ^ 63 - 1

/-- Embeds `strconv.ParseInt(s, 10, 64)`: `none` exactly when Go
returns a non-nil error (bad syntax or out of the int64 range). -/
def parseInt64 (s : String) : Option Int :=
  match parseIntChars s.data with
  | none => none
  | some v => if v < int64Min ∨ int64Max < v then none else some v

/-- Embeds `(*Parser).IsIntOpt`: delegates to `IsStrOpt`, then parses
and range-checks the captured string. -/
def Parser.IsIntOpt (p : Parser) (long short : String) (mn mx : Int) : Bool × Parser :=
  match p.IsStrOpt long short with
  | (false, p1) => (false, p1)
  | (true, p1) =>
    match parseInt64 p1.strVal with
    | none =>
      (false, p1.Errorf ("Ungültige Zahl: " ++ p1.strVal ++ " (Option --" ++ p1.opt ++ ")"))
    | some v =>
      if v < mn then
        (false, p1.Errorf ("Zahl muß >= " ++ toString mn ++ " sein: " ++ toString v ++
          " (Option --" ++ p1.opt ++ ")"))
      else if v > mx then
        (false, p1.Errorf ("Zahl muß <= " ++ toString mx ++ " sein: " ++ toString v ++
          " (Option --" ++ p1.opt ++ ")"))
      else
        (true, { p1 with intVal := v })

/-- Embeds `(*Parser).IntVal`. -/
def Parser.IntVal (p : Parser) : Int :=
  p.intVal

/-- Embeds `(*Parser).IsArg` (reads the receiver, never writes it). -/
def Parser.IsArg (p : Parser) : Bool :=
  p.opt = "" && p.strVal != ""

/-- Embeds `(*Parser).ArgIdx` (reads the receiver, never writes it). -/
def Parser.ArgIdx (p : Parser) : Nat :=
  p.argIdx

/-- Embeds `(*Parser).IsArgN` (reads the receiver, never writes it). -/
def Parser.IsArgN (p : Parser) (idx : Nat) : Bool :=
  if p.argIdx ≠ idx then false else p.IsArg

/-- Embeds `(*Parser).Arg`: the returned string value paired with the
updated parser state. -/
def Parser.Arg (p : Parser) : String × Parser :=
  if p.grabbed then (p.strVal, p)
  else (p.strVal, { p with grabbed := true, argIdx := p.argIdx + 1 })

/-- Result of a parse: clean exhaustion, help handler invoked with the
given text (Go returns nil after `HelpFunc(Help)`), or failure with the
recorded error message. -/
inductive Outcome where
  | ok : Outcome
  | helped : String → Outcome
  | failed : String → Outcome
deriving Repr, DecidableEq

/-- One iteration head of the `ParseArgs` loop, up to (and excluding)
the callback call: either the parser state handed to the callback
(token popped, classified, `grabbed` reset), or the parser state and
outcome with which the loop returns before reaching the callback
(exhausted input, `--help`, or a trailing bare `--`). -/
def exposeNext (help : String) (p : Parser) : Parser ⊕ (Parser × Outcome) :=
  match p.rest with
  | [] => Sum.inr (p, Outcome.ok)
  | arg :: rest1 =>
    if p.onlyArgs then
      Sum.inl { p with rest := rest1, opt := "", strVal := arg, grabbed := false }
    else if arg = "--help" then
      Sum.inr ({ p with rest := rest1 }, Outcome.helped help)
    else if arg = "--" then
      match rest1 with
      | [] =>
        Sum.inr ({ p with rest := rest1 }, match p.err with
          | some e => Outcome.failed e
          | none => Outcome.ok)
      | arg2 :: rest2 =>
        Sum.inl { p with rest := rest2, onlyArgs := true, opt := (Parser.parseArg arg2).1, strVal := (Parser.parseArg arg2).2, grabbed := false }
    else
      Sum.inl { p with rest := rest1, opt := (Parser.parseArg arg).1, strVal := (Parser.parseArg arg).2, grabbed := false }

/-- The `ParseArgs` loop with explicit fuel (one unit per iteration):
pop and classify via `exposeNext`, run the callback, return the
callback's recorded error if any, otherwise fail on an unclaimed token,
otherwise continue. -/
def parseLoop {σ : Type} (help : String) (fn : σ → Parser → σ × Parser) :
    Nat → σ → Parser → σ × Parser × Outcome
  | 0, s, p => (s, p, Outcome.ok)
  | Nat.succ fuel, s, p =>
    match exposeNext help p with
    | Sum.inr po => (s, po.1, po.2)
    | Sum.inl q =>
      match fn s q with
      | (s1, p1) =>
        match p1.err with
        | some e => (s1, p1, Outcome.failed e)
        | none =>
          if p1.grabbed then
            parseLoop help fn fuel s1 p1
          else if p1.opt ≠ "" then
            (s1, p1.Errorf ("Unbekannte Option: --" ++ p1.opt), Outcome.failed ("Unbekannte Option: --" ++ p1.opt))
          else
            (s1, p1.Errorf "Zu viele Argumente!", Outcome.failed "Zu viele Argumente!")

/-- Embeds `ParseArgs`: drop the executable path `args[0]` and run the
loop from the initial state, with enough fuel for one iteration per
remaining token. -/
def ParseArgs {σ : Type} (help : String) (args : List String)
    (fn : σ → Parser → σ × Parser) (s : σ) : σ × Parser × Outcome :=
  let rest := args.drop 1
  parseLoop help fn (rest.length + 1) s (Parser.initial rest)

/-- Embeds `DontFormat`, the default line formatter. -/
def DontFormat (s : String) : String :=
  s

/-- Embeds `fmt.Fprintln(fd, s)` as the string it appends to the
output: the argument followed by a newline. -/
def Fprintln (s : String) : String :=
  s ++ "\n"

/-- Embeds `strings.Split(msg, "\n")` on a character list; the result
is always non-empty. -/
def splitLines : List Char → List (List Char)
  | [] => [[]]
  | c :: cs =>
    if c = '\n' then [] :: splitLines cs
    else
      match splitLines cs with
      | [] => [[c]]
      | h :: r => (c :: h) :: r

/-- Embeds `ProgramMessage` as the full string written to `fd`, with
the process-global `Program` an explicit parameter: the first line is
formatted from `program ++ ": " ++ first message line ++ "\n"` and
printed with `Fprintln`; every further message line is printed indented
by `length of program + 2` spaces through the formatter. -/
def ProgramMessage (program : String) (formatLineFn : String → String)
    (msg : String) : String :=
  match splitLines msg.data with
  | [] => ""
  | first :: restLines =>
    let head := Fprintln (formatLineFn (program ++ ": " ++ String.mk first ++ "\n"))
    let indent := String.mk (List.replicate (program.data.length + 2) ' ')
    head ++ String.join (restLines.map (fun l => Fprintln (formatLineFn (indent ++ String.mk l))))

/-- External state accumulated by the callback of the package's own
test `parse_cmdline`: verbose flag, file, level, command and argument
list. -/
structure Opts where
  verbose : Bool
  file : String
  level : Int
  cmd : String
  args : List String
deriving Repr, DecidableEq

/-- Initial `Opts` value (Go zero values). -/
def Opts.init : Opts :=
  ⟨false, "", 0, "", []⟩

/-- The callback of the package's own test `parse_cmdline`, translated
case by case: a Go `switch` evaluates its cases in order and each case
expression runs with the side effects of the previous failed ones. -/
def testFn (o : Opts) (p : Parser) : Opts × Parser :=
  let r1 := p.IsOpt "verbose" "v"
  if r1.1 then ({ o with verbose := true }, r1.2)
  else
    let r2 := r1.2.IsStrOpt "file" "f"
    if r2.1 then ({ o with file := r2.2.StrVal }, r2.2)
    else
      let r3 := r2.2.IsIntOpt "level" "l" 0 3
      if r3.1 then ({ o with level := r3.2.IntVal }, r3.2)
      else
        if r3.2.IsArgN 0 then
          let a := r3.2.Arg
          ({ o with cmd := a.1 }, a.2)
        else if r3.2.IsArg && decide (r3.2.ArgIdx < 3) then
          let a := r3.2.Arg
          ({ o with args := o.args ++ [a.1] }, a.2)
        else (o, r3.2)

/-- A callback that records every classification it is shown and claims
every token (through `Arg`, which sets `grabbed` unconditionally). -/
def recFn (s : List (String × String)) (p : Parser) :
    List (String × String) × Parser :=
  ((p.opt, p.strVal) :: s, (p.Arg).2)

/-- The parser state the callback sees for the single empty-string
token of the argument list `["p", ""]`. -/
def emptyTokExposed : Parser :=
  ⟨[], 0, false, "", "", 0, false, none⟩

/-- Sanity check mirroring the Go test `TestLongOpts`. -/
theorem go_test_long_opts :
    ParseArgs "H" ["/usr/bin/cmdline", "--verbose", "--file=file.txt", "--level=2", "cmd", "arg0", "arg1"] testFn Opts.init =
      (⟨true, "file.txt", 2, "cmd", ["arg0", "arg1"]⟩,
       ⟨[], 3, false, "", "arg1", 2, true, none⟩, Outcome.ok) :=
  rfl

/-- Sanity check mirroring the Go test `TestShortOpts` (short forms and
multi-token value lookahead). -/
theorem go_test_short_opts :
    (ParseArgs "H" ["cmdline", "-v", "-f", "file.txt", "-l", "2", "cmd", "arg0"] testFn Opts.init).1 =
      ⟨true, "file.txt", 2, "cmd", ["arg0"]⟩ :=
  rfl

/-- Sanity check mirroring the Go test `TestHelp`: `--help` stops the
parse before later tokens, hands the configured text to the help
handler and leaves the accumulated state untouched. -/
theorem go_test_help :
    ParseArgs "HELP" ["cmdline", "--help", "--verbose"] testFn Opts.init =
      (Opts.init, ⟨["--verbose"], 0, false, "", "", 0, false, none⟩, Outcome.helped "HELP") :=
  rfl

/-- Sanity check mirroring the Go test `TestOnlyArgs`. -/
theorem go_test_only_args :
    (ParseArgs "H" ["cmdline", "-v", "--", "cmd", "--file=file.txt"] testFn Opts.init).1 =
      ⟨true, "", 0, "cmd", ["--file=file.txt"]⟩ :=
  rfl

/-- Sanity check mirroring the Go tests `TestTooManyArgs`,
`TestUnknownOpt`, `TestMissingOptVal`, `TestUnwantedOptVal` and
`TestInvalidIntVal` (error messages byte for byte). -/
theorem go_test_errors :
    (ParseArgs "H" ["cmdline", "cmd", "arg0", "arg1", "arg2"] testFn Opts.init).2.2 =
      Outcome.failed "Zu viele Argumente!" ∧
    (ParseArgs "H" ["cmdline", "--verbose", "--unknown"] testFn Opts.init).2.2 =
      Outcome.failed "Unbekannte Option: --unknown" ∧
    (ParseArgs "H" ["cmdline", "--file", "--verbose"] testFn Opts.init).2.2 =
      Outcome.failed "Option erwartet ein Options-Argument: --file" ∧
    (ParseArgs "H" ["cmdline", "--verbose=file1"] testFn Opts.init).2.2 =
      Outcome.failed "Option erlaubt kein Options-Argument: --verbose" ∧
    (ParseArgs "H" ["cmdline", "--level=nonum"] testFn Opts.init).2.2 =
      Outcome.failed "Ungültige Zahl: nonum (Option --level)" ∧
    (ParseArgs "H" ["cmdline", "--level=-1"] testFn Opts.init).2.2 =
      Outcome.failed "Zahl muß >= 0 sein: -1 (Option --level)" ∧
    (ParseArgs "H" ["cmdline", "--level=4"] testFn Opts.init).2.2 =
      Outcome.failed "Zahl muß <= 3 sein: 4 (Option --level)" ∧
    (ParseArgs "H" ["cmdline", "-l", "4"] testFn Opts.init).2.2 =
      Outcome.failed "Zahl muß <= 3 sein: 4 (Option --level)" :=
  ⟨rfl, rfl, rfl, rfl, rfl, rfl, rfl, rfl⟩

/-- Characterization of the `strings.SplitN(s, "=", 2)` embedding: the
name is the longest `=`-free initial segment, and the value part exists
iff some `=` occurs, in which case it is everything after the first
`=`. -/
theorem splitN2Eq_spec (cs : List Char) :
    splitN2Eq cs =
      (cs.takeWhile (fun c => c != '='),
       if cs.any (fun c => c == '=') then some ((cs.dropWhile (fun c => c != '=')).tail)
       else none) := by
  induction cs with
  | nil => simp [splitN2Eq]
  | cons c cs ih =>
    by_cases h : c = '='
    · subst h
      simp [splitN2Eq]
    · simp [splitN2Eq, h, ih, List.takeWhile_cons, List.dropWhile_cons, List.any_cons]

/-- Claim C2: the classifier `parseArg` is a pure function such that a
token not starting with `-` yields an empty option name and the token
itself as value; a token starting with `-` has all leading `-` stripped
and the remainder split on the first `=` into name and value (value
empty when no `=` occurs); and an empty stripped name becomes the
sentinel `???`. -/
theorem claim_C2 (arg : String) :
    (hasDashStart arg = false → Parser.parseArg arg = ("", arg)) ∧
    (hasDashStart arg = true →
      Parser.parseArg arg =
        (String.mk
          (if ((arg.data.dropWhile (fun c => c = '-')).takeWhile (fun c => c != '=')) = []
           then ['?', '?', '?']
           else (arg.data.dropWhile (fun c => c = '-')).takeWhile (fun c => c != '=')),
         String.mk
          (if (arg.data.dropWhile (fun c => c = '-')).any (fun c => c == '=')
           then ((arg.data.dropWhile (fun c => c = '-')).dropWhile (fun c => c != '=')).tail
           else []))) := by
  constructor
  · intro h
    have h' : startsWithDash arg.data = false := h
    show (String.mk (parseArgChars arg.data).1, String.mk (parseArgChars arg.data).2) = ("", arg)
    rw [parseArgChars, if_neg (by simp [h'])]
  · intro h
    have h' : startsWithDash arg.data = true := h
    show (String.mk (parseArgChars arg.data).1, String.mk (parseArgChars arg.data).2) = _
    rw [parseArgChars, if_pos (by simp [h']), splitN2Eq_spec]
    cases hany : (arg.data.dropWhile (fun c => c = '-')).any (fun c => c == '=') <;>
      simp [hany]

/-- Witness for C2: both branches at concrete tokens. `abc` is
positional; `--file=a=b` splits on the first `=` only; `-` (only
dashes) maps to the sentinel name. -/
theorem claim_C2_witness :
    Parser.parseArg "abc" = ("", "abc") ∧
    Parser.parseArg "--file=a=b" = ("file", "a=b") ∧
    Parser.parseArg "-" = ("???", "") := by
  refine ⟨(claim_C2 "abc").1 rfl, ?_, ?_⟩
  · have h := (claim_C2 "--file=a=b").2 rfl
    simpa using h
  · have h := (claim_C2 "-").2 rfl
    simpa using h

/-- Claim C6: `IsOpt` returns false and leaves the state untouched
when the current option name matches neither `long` nor `short`; on a
match it normalizes the stored name to `long`, and then either fails
with the no-value error (naming the long form, not claiming) when the
current string value is non-empty (the visible trace of an inline `=`
value, since the classifier gives options a non-empty value exactly
then), or claims and returns true. -/
theorem claim_C6 (p : Parser) (long short : String) :
    (p.opt ≠ long → p.opt ≠ short → p.IsOpt long short = (false, p)) ∧
    ((p.opt = long ∨ p.opt = short) → p.strVal ≠ "" →
      p.IsOpt long short =
        (false, { p with opt := long, err := some ("Option erlaubt kein Options-Argument: --" ++ long) })) ∧
    ((p.opt = long ∨ p.opt = short) → p.strVal = "" →
      p.IsOpt long short = (true, { p with opt := long, grabbed := true })) := by
  refine ⟨?_, ?_, ?_⟩
  · intro h1 h2
    rw [Parser.IsOpt, if_pos ⟨h1, h2⟩]
  · intro hm hv
    have hcond : ¬(p.opt ≠ long ∧ p.opt ≠ short) := by
      rcases hm with h | h <;> simp [h]
    rw [Parser.IsOpt, if_neg hcond, if_pos hv]
    rfl
  · intro hm hv
    have hcond : ¬(p.opt ≠ long ∧ p.opt ≠ short) := by
      rcases hm with h | h <;> simp [h]
    rw [Parser.IsOpt, if_neg hcond, if_neg (by simp [hv])]

/-- Witness for C6: all three branches at concrete states classified
from `--other`, `--verbose=x` and `--verbose`. -/
theorem claim_C6_witness :
    Parser.IsOpt ⟨[], 0, false, "other", "", 0, false, none⟩ "verbose" "v" =
      (false, ⟨[], 0, false, "other", "", 0, false, none⟩) ∧
    Parser.IsOpt ⟨[], 0, false, "verbose", "x", 0, false, none⟩ "verbose" "v" =
      (false, ⟨[], 0, false, "verbose", "x", 0, false,
        some "Option erlaubt kein Options-Argument: --verbose"⟩) ∧
    Parser.IsOpt ⟨[], 0, false, "v", "", 0, false, none⟩ "verbose" "v" =
      (true, ⟨[], 0, false, "verbose", "", 0, true, none⟩) := by
  refine ⟨?_, ?_, ?_⟩
  · exact (claim_C6 ⟨[], 0, false, "other", "", 0, false, none⟩ "verbose" "v").1
      (by decide) (by decide)
  · have h := (claim_C6 ⟨[], 0, false, "verbose", "x", 0, false, none⟩ "verbose" "v").2.1
      (Or.inl rfl) (by decide)
    simpa using h
  · have h := (claim_C6 ⟨[], 0, false, "v", "", 0, false, none⟩ "verbose" "v").2.2
      (Or.inr rfl) rfl
    simpa using h

/-- Claim C3: `IsStrOpt` on a name match claims immediately and keeps
the current value when that value is non-empty (the visible trace of an
inline `=` value); with an empty value and a remaining token it pops
and classifies the lookahead, taking it as the value and claiming iff
the classified option name is empty and the classified value is
non-empty; in every other case (option-like lookahead, empty lookahead
value, or no tokens left) it records the expects-a-value error naming
the long form and does not claim. The pop persists even on failure. -/
theorem claim_C3 (p : Parser) (long short : String)
    (hm : p.opt = long ∨ p.opt = short) :
    (p.strVal ≠ "" →
      p.IsStrOpt long short = (true, { p with opt := long, grabbed := true })) ∧
    (∀ a r, p.strVal = "" → p.rest = a :: r →
      (((Parser.parseArg a).1 = "" ∧ (Parser.parseArg a).2 ≠ "") →
        p.IsStrOpt long short =
          (true, { p with opt := long, rest := r, strVal := (Parser.parseArg a).2, grabbed := true })) ∧
      (((Parser.parseArg a).1 ≠ "" ∨ (Parser.parseArg a).2 = "") →
        p.IsStrOpt long short =
          (false, { p with opt := long, rest := r, err := some ("Option erwartet ein Options-Argument: --" ++ long) }))) ∧
    (p.strVal = "" → p.rest = [] →
      p.IsStrOpt long short =
        (false, { p with opt := long, err := some ("Option erwartet ein Options-Argument: --" ++ long) })) := by
  have hcond : ¬(p.opt ≠ long ∧ p.opt ≠ short) := by
    rcases hm with h | h <;> simp [h]
  refine ⟨?_, ?_, ?_⟩
  · intro hv
    rw [Parser.IsStrOpt, if_neg hcond, if_pos hv]
  · intro a r hv hr
    constructor
    · intro hl
      rw [Parser.IsStrOpt, if_neg hcond, if_neg (by simp [hv]), hr]
      simp only [if_pos hl]
    · intro hl
      have hl' : ¬((Parser.parseArg a).1 = "" ∧ (Parser.parseArg a).2 ≠ "") := by
        rcases hl with h | h
        · exact fun hc => h hc.1
        · exact fun hc => hc.2 h
      rw [Parser.IsStrOpt, if_neg hcond, if_neg (by simp [hv]), hr]
      simp only [if_neg hl']
      rfl
  · intro hv hr
    rw [Parser.IsStrOpt, if_neg hcond, if_neg (by simp [hv]), hr]
    rfl

/-- Witness for C3: the inline-value branch on the state classified
from `--file=x`; the successful and failing lookahead branches at
states classified from `--file` (lookahead `file.txt` and lookahead
`--verbose`); the exhausted branch with no tokens left. -/
theorem claim_C3_witness :
    Parser.IsStrOpt ⟨[], 0, false, "file", "x", 0, false, none⟩ "file" "f" =
      (true, ⟨[], 0, false, "file", "x", 0, true, none⟩) ∧
    Parser.IsStrOpt ⟨["file.txt"], 0, false, "f", "", 0, false, none⟩ "file" "f" =
      (true, ⟨[], 0, false, "file", "file.txt", 0, true, none⟩) ∧
    Parser.IsStrOpt ⟨["--verbose"], 0, false, "file", "", 0, false, none⟩ "file" "f" =
      (false, ⟨[], 0, false, "file", "", 0, false,
        some "Option erwartet ein Options-Argument: --file"⟩) ∧
    Parser.IsStrOpt ⟨[], 0, false, "file", "", 0, false, none⟩ "file" "f" =
      (false, ⟨[], 0, false, "file", "", 0, false,
        some "Option erwartet ein Options-Argument: --file"⟩) := by
  refine ⟨?_, ?_, ?_, ?_⟩
  · have h := (claim_C3 ⟨[], 0, false, "file", "x", 0, false, none⟩ "file" "f"
      (Or.inl rfl)).1 (by decide)
    simpa using h
  · have h := ((claim_C3 ⟨["file.txt"], 0, false, "f", "", 0, false, none⟩ "file" "f"
      (Or.inr rfl)).2.1 "file.txt" [] rfl rfl).1 (by constructor <;> decide)
    simpa using h
  · have h := ((claim_C3 ⟨["--verbose"], 0, false, "file", "", 0, false, none⟩ "file" "f"
      (Or.inl rfl)).2.1 "--verbose" [] rfl rfl).2 (Or.inl (by decide))
    simpa using h
  · have h := (claim_C3 ⟨[], 0, false, "file", "", 0, false, none⟩ "file" "f"
      (Or.inl rfl)).2.2 rfl rfl
    simpa using h

/-- Helper: a successful `IsStrOpt` leaves the stored option name
normalized to the long form. -/
theorem IsStrOpt_true_opt (p p1 : Parser) (long short : String)
    (h : p.IsStrOpt long short = (true, p1)) : p1.opt = long := by
  rw [Parser.IsStrOpt] at h
  split at h
  · simp at h
  · split at h
    · obtain ⟨-, h⟩ := Prod.mk.inj h
      rw [← h]
    · split at h
      · split at h
        · obtain ⟨-, h⟩ := Prod.mk.inj h
          rw [← h]
        · simp [Parser.Errorf] at h
      · simp [Parser.Errorf] at h

/-- Claim C4: when `IsIntOpt` gets past the string-option stage, it
returns true and stores the integer exactly when the captured string
parses as a base-10 integer `v` with `mn <= v <= mx` (bounds
inclusive), and otherwise returns false after recording one of three
distinct errors naming the long option: not a valid integer, below
`mn`, or above `mx`. -/
theorem claim_C4 (p p1 : Parser) (long short : String) (mn mx : Int)
    (h : p.IsStrOpt long short = (true, p1)) :
    (parseInt64 p1.strVal = none →
      p.IsIntOpt long short mn mx =
        (false, { p1 with err := some ("Ungültige Zahl: " ++ p1.strVal ++ " (Option --" ++ long ++ ")") })) ∧
    (∀ v : Int, parseInt64 p1.strVal = some v →
      ((mn ≤ v ∧ v ≤ mx) →
        p.IsIntOpt long short mn mx = (true, { p1 with intVal := v })) ∧
      (v < mn →
        p.IsIntOpt long short mn mx =
          (false, { p1 with err := some ("Zahl muß >= " ++ toString mn ++ " sein: " ++ toString v ++ " (Option --" ++ long ++ ")") })) ∧
      (mn ≤ v → mx < v →
        p.IsIntOpt long short mn mx =
          (false, { p1 with err := some ("Zahl muß <= " ++ toString mx ++ " sein: " ++ toString v ++ " (Option --" ++ long ++ ")") }))) := by
  have hopt : p1.opt = long := IsStrOpt_true_opt p p1 long short h
  constructor
  · intro hn
    rw [Parser.IsIntOpt, h]
    simp only [hn, hopt]
    simp [Parser.Errorf, hopt]
  · intro v hv
    refine ⟨?_, ?_, ?_⟩
    · intro hb
      rw [Parser.IsIntOpt, h]
      simp only [hv, hopt]
      rw [if_neg (by omega), if_neg (by omega)]
    · intro hlt
      rw [Parser.IsIntOpt, h]
      simp only [hv, hopt]
      rw [if_pos hlt]
      simp [Parser.Errorf, hopt]
    · intro hge hgt
      rw [Parser.IsIntOpt, h]
      simp only [hv, hopt]
      rw [if_neg (by omega), if_pos (by omega)]
      simp [Parser.Errorf, hopt]

/-- Witness for C4: the option `--level` with bounds 0..3 at the
captured strings `2` (in range), `0` and `3` (both boundaries
accepted), `nonum` (invalid), `-1` (below) and `4` (above). -/
theorem claim_C4_witness :
    Parser.IsIntOpt ⟨[], 0, false, "level", "2", 0, false, none⟩ "level" "l" 0 3 =
      (true, ⟨[], 0, false, "level", "2", 2, true, none⟩) ∧
    Parser.IsIntOpt ⟨[], 0, false, "level", "0", 0, false, none⟩ "level" "l" 0 3 =
      (true, ⟨[], 0, false, "level", "0", 0, true, none⟩) ∧
    Parser.IsIntOpt ⟨[], 0, false, "level", "3", 0, false, none⟩ "level" "l" 0 3 =
      (true, ⟨[], 0, false, "level", "3", 3, true, none⟩) ∧
    Parser.IsIntOpt ⟨[], 0, false, "level", "nonum", 0, false, none⟩ "level" "l" 0 3 =
      (false, ⟨[], 0, false, "level", "nonum", 0, true, some "Ungültige Zahl: nonum (Option --level)"⟩) ∧
    Parser.IsIntOpt ⟨[], 0, false, "level", "-1", 0, false, none⟩ "level" "l" 0 3 =
      (false, ⟨[], 0, false, "level", "-1", 0, true, some "Zahl muß >= 0 sein: -1 (Option --level)"⟩) ∧
    Parser.IsIntOpt ⟨[], 0, false, "level", "4", 0, false, none⟩ "level" "l" 0 3 =
      (false, ⟨[], 0, false, "level", "4", 0, true, some "Zahl muß <= 3 sein: 4 (Option --level)"⟩) := by
  refine ⟨?_, ?_, ?_, ?_, ?_, ?_⟩
  · have h := ((claim_C4 ⟨[], 0, false, "level", "2", 0, false, none⟩
      ⟨[], 0, false, "level", "2", 0, true, none⟩ "level" "l" 0 3 rfl).2 2 rfl).1
      (by constructor <;> decide)
    simpa using h
  · have h := ((claim_C4 ⟨[], 0, false, "level", "0", 0, false, none⟩
      ⟨[], 0, false, "level", "0", 0, true, none⟩ "level" "l" 0 3 rfl).2 0 rfl).1
      (by constructor <;> decide)
    simpa using h
  · have h := ((claim_C4 ⟨[], 0, false, "level", "3", 0, false, none⟩
      ⟨[], 0, false, "level", "3", 0, true, none⟩ "level" "l" 0 3 rfl).2 3 rfl).1
      (by constructor <;> decide)
    simpa using h
  · have h := (claim_C4 ⟨[], 0, false, "level", "nonum", 0, false, none⟩
      ⟨[], 0, false, "level", "nonum", 0, true, none⟩ "level" "l" 0 3 rfl).1 rfl
    simpa using h
  · have h := ((claim_C4 ⟨[], 0, false, "level", "-1", 0, false, none⟩
      ⟨[], 0, false, "level", "-1", 0, true, none⟩ "level" "l" 0 3 rfl).2 (-1) rfl).2.1
      (by decide)
    simpa using h
  · have h := ((claim_C4 ⟨[], 0, false, "level", "4", 0, false, none⟩
      ⟨[], 0, false, "level", "4", 0, true, none⟩ "level" "l" 0 3 rfl).2 4 rfl).2.2
      (by decide) (by decide)
    simpa using h

/-- Claim C8: `Arg` always returns the current string value; it
advances the positional index and sets the claimed flag exactly on its
first invocation for an unclaimed token and is a no-op afterwards
(idempotent per token); and no other operation moves the index: the
option matchers, `Errorf` and the loop head `exposeNext` all preserve
`argIdx` (the readers `IsArg`, `IsArgN` and `ArgIdx` are pure functions
of the state by construction — the Go methods never write the
receiver). -/
theorem claim_C8 (p : Parser) (long short m helpText : String) (mn mx : Int) :
    ((p.Arg).1 = p.strVal) ∧
    (p.grabbed = false → (p.Arg).2 = { p with grabbed := true, argIdx := p.argIdx + 1 }) ∧
    (p.grabbed = true → (p.Arg).2 = p) ∧
    (((p.Arg).2.Arg).2 = (p.Arg).2) ∧
    ((p.IsOpt long short).2.argIdx = p.argIdx) ∧
    ((p.IsStrOpt long short).2.argIdx = p.argIdx) ∧
    ((p.IsIntOpt long short mn mx).2.argIdx = p.argIdx) ∧
    ((p.Errorf m).argIdx = p.argIdx) ∧
    (∀ q, exposeNext helpText p = Sum.inl q → q.argIdx = p.argIdx) ∧
    (∀ q o, exposeNext helpText p = Sum.inr (q, o) → q.argIdx = p.argIdx) := by
  have hIsOpt : (p.IsOpt long short).2.argIdx = p.argIdx := by
    rw [Parser.IsOpt]
    split
    · rfl
    · split <;> rfl
  have hIsStrOpt : ∀ p' : Parser, (p'.IsStrOpt long short).2.argIdx = p'.argIdx := by
    intro p'
    rw [Parser.IsStrOpt]
    split
    · rfl
    · split
      · rfl
      · split
        · split <;> rfl
        · rfl
  refine ⟨?_, ?_, ?_, ?_, hIsOpt, hIsStrOpt p, ?_, rfl, ?_, ?_⟩
  · rw [Parser.Arg]
    split <;> rfl
  · intro hg
    simp [Parser.Arg, hg]
  · intro hg
    simp [Parser.Arg, hg]
  · cases hg : p.grabbed <;> simp [Parser.Arg, hg]
  · rw [Parser.IsIntOpt]
    rcases hs : p.IsStrOpt long short with ⟨b, p1⟩
    have hidx : p1.argIdx = p.argIdx := by
      have := hIsStrOpt p
      rw [hs] at this
      exact this
    cases b
    · exact hidx
    · simp only []
      split
      · exact hidx
      · split
        · exact hidx
        · split <;> exact hidx
  · intro q hq
    rw [exposeNext] at hq
    split at hq
    · simp at hq
    · split at hq
      · obtain h := Sum.inl.inj hq
        rw [← h]
      · split at hq
        · simp at hq
        · split at hq
          · split at hq
            · simp at hq
            · obtain h := Sum.inl.inj hq
              rw [← h]
          · obtain h := Sum.inl.inj hq
            rw [← h]
  · intro q o hq
    rw [exposeNext] at hq
    split at hq
    · obtain h := Sum.inr.inj hq
      rw [← (Prod.mk.inj h).1]
    · split at hq
      · simp at hq
      · split at hq
        · obtain h := Sum.inr.inj hq
          rw [← (Prod.mk.inj h).1]
        · split at hq
          · split at hq
            · obtain h := Sum.inr.inj hq
              rw [← (Prod.mk.inj h).1]
            · simp at hq
          · simp at hq

/-- Witness for C8: both `Arg` branches at concrete states — an
unclaimed positional token `cmd` (index advances once, stays after a
second call) and an already-claimed one (no-op). -/
theorem claim_C8_witness :
    (Parser.Arg ⟨[], 0, false, "", "cmd", 0, false, none⟩).2 =
      ⟨[], 1, false, "", "cmd", 0, true, none⟩ ∧
    (Parser.Arg ⟨[], 1, false, "", "cmd", 0, true, none⟩).2 =
      ⟨[], 1, false, "", "cmd", 0, true, none⟩ := by
  constructor
  · have h := (claim_C8 ⟨[], 0, false, "", "cmd", 0, false, none⟩ "a" "b" "m" "H" 0 3).2.1 rfl
    simpa using h
  · have h := (claim_C8 ⟨[], 1, false, "", "cmd", 0, true, none⟩ "a" "b" "m" "H" 0 3).2.2.1 rfl
    simpa using h

/-- Claim C1: on any loop iteration whose classified token the
callback returns unclaimed with no error recorded (and with the option
name left as classified, which every parser method guarantees in this
situation), the loop stops at once — independently of the remaining
fuel, so no later token is processed — failing with the unknown-option
error naming `--` plus the classified option name when that name is
non-empty, and with the too-many-arguments error when it is empty; the
error is recorded on the returned parser state. -/
theorem claim_C1 {σ : Type} (helpText : String) (fn : σ → Parser → σ × Parser)
    (n : Nat) (s s1 : σ) (p q p1 : Parser)
    (hq : exposeNext helpText p = Sum.inl q)
    (hfn : fn s q = (s1, p1))
    (herr : p1.err = none)
    (hgrab : p1.grabbed = false)
    (hopt : p1.opt = q.opt) :
    parseLoop helpText fn (n + 1) s p =
      (s1,
       p1.Errorf (if q.opt ≠ "" then "Unbekannte Option: --" ++ q.opt else "Zu viele Argumente!"),
       Outcome.failed (if q.opt ≠ "" then "Unbekannte Option: --" ++ q.opt else "Zu viele Argumente!")) := by
  rw [parseLoop, hq]
  simp only [hfn, herr, hgrab, hopt]
  by_cases h : q.opt ≠ ""
  · rw [if_pos h, if_pos h]
    simp
  · rw [if_neg h, if_neg h]
    simp

/-- Witness for C1: a callback that claims nothing, facing the single
token `--bogus` — the loop fails at once with the unknown-option
error. -/
theorem claim_C1_witness :
    parseLoop "H" (fun (s : Unit) (p : Parser) => (s, p)) 1 () (Parser.initial ["--bogus"]) =
      ((), ⟨[], 0, false, "bogus", "", 0, false, some "Unbekannte Option: --bogus"⟩,
       Outcome.failed "Unbekannte Option: --bogus") := by
  have h := claim_C1 "H" (fun (s : Unit) (p : Parser) => (s, p)) 0 () ()
    (Parser.initial ["--bogus"]) ⟨[], 0, false, "bogus", "", 0, false, none⟩
    ⟨[], 0, false, "bogus", "", 0, false, none⟩ rfl rfl rfl rfl rfl
  simpa using h

/-- Claim C7: when the next token is the literal `--help` and the
parser is not in only-positional mode, the loop hands the configured
help text to the help handler and returns at once with no error —
independently of the remaining fuel, so no later token is processed —
and the callback state `s` is returned untouched, keeping every effect
of earlier tokens. -/
theorem claim_C7 {σ : Type} (helpText : String) (fn : σ → Parser → σ × Parser)
    (n : Nat) (s : σ) (p : Parser) (rest1 : List String)
    (hr : p.rest = "--help" :: rest1)
    (ho : p.onlyArgs = false) :
    parseLoop helpText fn (n + 1) s p =
      (s, { p with rest := rest1 }, Outcome.helped helpText) := by
  rw [parseLoop]
  have he : exposeNext helpText p = Sum.inr ({ p with rest := rest1 }, Outcome.helped helpText) := by
    rw [exposeNext]
    simp [hr, ho]
  rw [he]

/-- Witness for C7: the token list `["--help", "later"]` with a
callback that would claim everything — the loop stops at the `--help`
token with the `helped` outcome, never reaching `later`. -/
theorem claim_C7_witness :
    parseLoop "HELP" recFn 2 [] (Parser.initial ["--help", "later"]) =
      ([], ⟨["later"], 0, false, "", "", 0, false, none⟩, Outcome.helped "HELP") := by
  have h := claim_C7 "HELP" recFn 1 [] (Parser.initial ["--help", "later"]) ["later"] rfl rfl
  simpa using h

/-- Counterexample to C5 as stated: on the argument list
`["prog", "--", "--file=x"]`, only-positional mode is entered (the bare
`--` has a token after it), yet the very next token `--file=x` —
consumed in the same loop iteration — is shown to the callback as
option name `file` with value `x`, not with an empty option name and
the verbatim value `--file=x`. The recording callback sees exactly one
exposure, and its option name is non-empty. -/
theorem claim_C5_counterexample :
    (ParseArgs "H" ["prog", "--", "--file=x"] recFn []).1 = [("file", "x")] ∧
    (ParseArgs "H" ["prog", "--", "--file=x"] recFn []).2.1.onlyArgs = true ∧
    ("file" : String) ≠ "" ∧ ("x" : String) ≠ "--file=x" := by
  refine ⟨rfl, rfl, ?_, ?_⟩ <;> decide

/-- Claim C5, amended: once entered, only-positional mode is never
reset for the rest of the parse (for any callback that preserves the
flag, as every parser method does), and every token popped at the start
of a later iteration is exposed with empty option name and the raw
token as value, whatever it looks like; however, the token consumed in
the same iteration as the `--` marker itself is still classified by the
regular tokenizer. -/
theorem claim_C5 {σ : Type} (helpText : String) (fn : σ → Parser → σ × Parser)
    (hfn : ∀ s q, ((fn s q).2).onlyArgs = q.onlyArgs) :
    (∀ fuel s p, p.onlyArgs = true →
      ((parseLoop helpText fn fuel s p).2.1).onlyArgs = true) ∧
    (∀ p arg rest1, p.onlyArgs = true → p.rest = arg :: rest1 →
      exposeNext helpText p =
        Sum.inl { p with rest := rest1, opt := "", strVal := arg, grabbed := false }) ∧
    (∀ p arg2 rest2, p.onlyArgs = false → p.rest = "--" :: arg2 :: rest2 →
      exposeNext helpText p =
        Sum.inl { p with rest := rest2, onlyArgs := true, opt := (Parser.parseArg arg2).1, strVal := (Parser.parseArg arg2).2, grabbed := false }) := by
  have hexp : ∀ p arg rest1, p.onlyArgs = true → p.rest = arg :: rest1 →
      exposeNext helpText p =
        Sum.inl { p with rest := rest1, opt := "", strVal := arg, grabbed := false } := by
    intro p arg rest1 ho hr
    rw [exposeNext]
    simp [hr, ho]
  refine ⟨?_, hexp, ?_⟩
  · intro fuel
    induction fuel with
    | zero =>
      intro s p h
      simpa [parseLoop] using h
    | succ fuel ih =>
      intro s p h
      cases hr : p.rest with
      | nil =>
        rw [parseLoop, exposeNext, hr]
        exact h
      | cons a t =>
        rw [parseLoop, hexp p a t h hr]
        rcases hfs : fn s { p with rest := t, opt := "", strVal := a, grabbed := false } with ⟨s1, p1⟩
        have hp1 : p1.onlyArgs = true := by
          have hq := hfn s { p with rest := t, opt := "", strVal := a, grabbed := false }
          rw [hfs] at hq
          rw [hq]
          exact h
        simp only [hfs]
        cases he : p1.err with
        | some e => exact hp1
        | none =>
          cases hg : p1.grabbed with
          | true =>
            simp only [hg, if_true]
            exact ih s1 p1 hp1
          | false =>
            simp only [hg]
            by_cases hopt : p1.opt ≠ "" <;> simp [hopt, Parser.Errorf, hp1]
  · intro p arg2 rest2 ho hr
    rw [exposeNext]
    simp [hr, ho, Parser.parseArg]

/-- Witness for C5 (amended): a flag-preserving callback that claims
everything; the loop keeps only-positional mode on a concrete state
already in that mode, the next token `--x` is exposed verbatim as a
positional value, and the token right after a `--` marker goes through
the tokenizer. -/
theorem claim_C5_witness :
    ((parseLoop "H" (fun (s : Unit) (p : Parser) => (s, { p with grabbed := true })) 2 ()
        (⟨["--x"], 0, true, "", "", 0, false, none⟩ : Parser)).2.1).onlyArgs = true ∧
    exposeNext "H" (⟨["--x"], 0, true, "", "", 0, false, none⟩ : Parser) =
      Sum.inl ⟨[], 0, true, "", "--x", 0, false, none⟩ ∧
    exposeNext "H" (⟨["--", "--file=x"], 0, false, "", "", 0, false, none⟩ : Parser) =
      Sum.inl ⟨[], 0, true, "file", "x", 0, false, none⟩ := by
  have h := claim_C5 (σ := Unit) "H"
    (fun (s : Unit) (p : Parser) => (s, { p with grabbed := true })) (fun s q => rfl)
  refine ⟨h.1 2 () ⟨["--x"], 0, true, "", "", 0, false, none⟩ rfl, ?_, ?_⟩
  · have h2 := h.2.1 ⟨["--x"], 0, true, "", "", 0, false, none⟩ "--x" [] rfl rfl
    simpa using h2
  · have h3 := h.2.2 ⟨["--", "--file=x"], 0, false, "", "", 0, false, none⟩ "--file=x" [] rfl rfl
    simpa using h3

/-- Claim C9 fails on the code: `ProgramMessage` formats the first
output line with `"%s: %s\n"` — a trailing newline inside the string —
and then prints it with `Fprintln`, which appends a second newline. The
written stream therefore contains an extra blank line after the first
rendered line (even for a single-line message), and the first line is
handed to the formatter with its trailing newline included. The claimed
rendering — exactly one output line per message line, no others — is
the second, refuted equality. -/
theorem claim_C9_bug :
    ProgramMessage "prog" DontFormat "Zeile1\nZeile2" = "prog: Zeile1\n\n      Zeile2\n" ∧
    ProgramMessage "prog" DontFormat "Zeile1\nZeile2" ≠ "prog: Zeile1\n      Zeile2\n" ∧
    ProgramMessage "prog" DontFormat "nur" = "prog: nur\n\n" := by
  refine ⟨rfl, ?_, rfl⟩
  decide

/-- Claim C10: the empty-string token classifies to an empty option
name and an empty value, the parser state exposed for it satisfies
neither `IsArg` nor `IsArgN idx` for any `idx`, and a callback claiming
positionals only behind those tests (the package's own test callback)
leaves the token unclaimed, so the parse fails with the
too-many-arguments error. -/
theorem claim_C10 :
    Parser.parseArg "" = ("", "") ∧
    exposeNext "H" (Parser.initial [""]) = Sum.inl emptyTokExposed ∧
    emptyTokExposed.IsArg = false ∧
    (∀ idx : Nat, emptyTokExposed.IsArgN idx = false) ∧
    (ParseArgs "H" ["p", ""] testFn Opts.init).2.2 = Outcome.failed "Zu viele Argumente!" := by
  refine ⟨rfl, rfl, rfl, ?_, rfl⟩
  intro idx
  rw [Parser.IsArgN]
  split
  · rfl
  · rfl

end Cmdline
